import Mathlib

/-!
A shallow embedding of the TinyLog logging core (`TinyLog/tinylog.hpp`):
log levels, the message value, the line formatter, the rotating file
sink, the logger dispatch pipeline, the async worker teardown path, and
the scope timer.  Machine integers of the source are modelled as
`Nat`/`Int`; file-system state is an explicit association of numbered
names to contents (index 0 is `path`, index `k > 0` is `path.k`).
-/

set_option autoImplicit false

namespace TinyLog

/-! ## Levels (`struct level`) -/

/-- Level `trace` (= 0 in the source enum). -/
def level.trace : Int := 0

/-- Level `debug` (= 1). -/
def level.debug : Int := 1

/-- Level `info` (= 2). -/
def level.info : Int := 2

/-- Level `warn` (= 3). -/
def level.warn : Int := 3

/-- Level `error` (= 4). -/
def level.error : Int := 4

/-- Level `critical` (= 5). -/
def level.critical : Int := 5

/-- Level `off` (= 6), the sentinel threshold. -/
def level.off : Int := 6

/-- Embeds `level_name`: the `switch` over the level with default `"OFF"`. -/
def level_name (lv : Int) : String :=
  if lv = 0 then "TRACE"
  else if lv = 1 then "DEBUG"
  else if lv = 2 then "INFO"
  else if lv = 3 then "WARN"
  else if lv = 4 then "ERROR"
  else if lv = 5 then "CRIT"
  else "OFF"

/-! ## Time rendering (`fmt_time`)

`fmt_time` converts a wall-clock `time_t` through `gmtime`/`localtime`
and prints `%Y-%m-%d %H:%M:%S`.  The civil-calendar conversion is pure
arithmetic; the local-time variant depends on the host time zone, which
the embedding passes in as an offset `tz` in seconds. -/

/-- Decimal rendering padded to two digits, as `std::put_time` does for
`%m`, `%d`, `%H`, `%M`, `%S`. -/
def pad2 (n : Nat) : String :=
  if n < 10 then "0" ++ toString n else toString n

/-- Decimal rendering padded to four digits (`%Y`). -/
def pad4 (n : Nat) : String :=
  if n < 10 then "000" ++ toString n
  else if n < 100 then "00" ++ toString n
  else if n < 1000 then "0" ++ toString n
  else toString n

/-- Civil date (year, month, day) from days since the Unix epoch,
the standard era-based conversion performed by `gmtime`. -/
def civilFromDays (z0 : Int) : Int × Nat × Nat :=
  let z := z0 + 719468
  let era := Int.fdiv z 146097
  let doe := (z - era * 146097).toNat
  let yoe := (doe - doe / 1460 + doe / 36524 - doe / 146097) / 365
  let y := (yoe : Int) + era * 400
  let doy := doe - (365 * yoe + yoe / 4 - yoe / 100)
  let mp := (5 * doy + 2) / 153
  let d := doy - (153 * mp + 2) / 5 + 1
  let m := if mp < 10 then mp + 3 else mp - 9
  (if m ≤ 2 then y + 1 else y, m, d)

/-- Embeds `fmt_time tt utc`: UTC uses `gmtime`, local time applies the
host offset `tz` first. -/
def fmt_time (tz : Int) (tt : Int) (utc : Bool) : String :=
  let t := if utc then tt else tt + tz
  let days := Int.fdiv t 86400
  let secs := (t - days * 86400).toNat
  let c := civilFromDays days
  pad4 c.1.toNat ++ "-" ++ pad2 c.2.1 ++ "-" ++ pad2 c.2.2 ++ " " ++
    pad2 (secs / 3600) ++ ":" ++ pad2 (secs % 3600 / 60) ++ ":" ++ pad2 (secs % 60)

/-! ## Variadic concatenation (`cat`) -/

/-- One argument of the variadic `cat`: the call sites in scope pass
strings and integers, streamed by `operator<<`. -/
inductive CatArg : Type
  | s (v : String)
  | i (v : Int)
deriving DecidableEq

/-- Printable representation of one argument, as `operator<<` renders it. -/
def CatArg.render : CatArg → String
  | .s v => v
  | .i v => toString v

/-- Embeds `cat`: fold the arguments left to right into one string. -/
def cat (args : List CatArg) : String :=
  args.foldl (fun acc a => acc ++ a.render) ""

/-! ## Messages (`struct LogMessage`) -/

/-- Embeds `LogMessage`.  `tid` is the integer the stream prints for
`std::thread::id`; `file` keeps the full path. -/
structure LogMessage where
  level : Int
  ts_ns : Nat
  wall : Int
  tid : Nat
  file : String
  func : String
  line : Int
  text : String
deriving DecidableEq

/-! ## Line formatter (`format_line`) -/

/-- Basename of a path, as `fs::path(file).filename()` extracts it. -/
def filenameOf (p : String) : String :=
  (p.splitOn "/").getLastD p

/-- The ANSI color chosen by the `switch` in `format_line`; `col` is
initialized to the reset code, so unrecognized levels keep it. -/
def colorFor (lv : Int) : String :=
  if lv = 0 then "\x1b[90m"
  else if lv = 1 then "\x1b[36m"
  else if lv = 2 then "\x1b[37m"
  else if lv = 3 then "\x1b[33m"
  else if lv = 4 then "\x1b[31m"
  else if lv = 5 then "\x1b[41;97m"
  else "\x1b[0m"

/-- Embeds `format_line m utc colorize`. -/
def format_line (tz : Int) (m : LogMessage) (utc : Bool) (colorize : Bool) : String :=
  let line := (if utc then "UTC" else "LOC") ++ " " ++ fmt_time tz m.wall utc ++
    " [" ++ level_name m.level ++ "] " ++ "(tid:" ++ toString m.tid ++ ") " ++
    filenameOf m.file ++ ":" ++ toString m.line ++ " " ++ m.func ++ " | " ++ m.text
  if !colorize then line
  else colorFor m.level ++ line ++ "\x1b[0m"

/-! ## File-system model for the rotating file sink

The sink only ever touches its own path and the numbered backups, so
files are named by a `Nat`: `0` is `path_`, `k > 0` is `path_.k`.  The
disk is an association of names to contents. -/

/-- Disk contents: association of file names to file contents. -/
abbrev Disk : Type := List (Nat × String)

/-- Content of file `k`, if it exists (`fs::exists` / reading). -/
def lookupF (d : Disk) (k : Nat) : Option String :=
  (d.find? (fun e => e.1 == k)).map (fun e => e.2)

/-- Remove file `k` (`fs::remove`; no error if absent). -/
def eraseF (d : Disk) (k : Nat) : Disk :=
  d.filter (fun e => !(e.1 == k))

/-- Put content `c` at file `k`, replacing what was there. -/
def writeF (d : Disk) (k : Nat) (c : String) : Disk :=
  (k, c) :: eraseF d k

/-- One attempt of `fs::rename(src, dst, ec)` under the strictest platform
semantics the fallback in `rotate_if_needed` guards against: the rename
fails (`none`) when the destination already exists, and also when the
source is missing; otherwise the content moves. -/
def renameTry (d : Disk) (src dst : Nat) : Option Disk :=
  if (lookupF d dst).isSome then none
  else (lookupF d src).map (fun c => writeF (eraseF d src) dst c)

/-- Embeds the rename-with-fallback in `rotate_if_needed`:
`fs::rename(from, to, ec2); if (ec2) { fs::remove(to, ec2); fs::rename(from, to, ec2); }`. -/
def renameStep (d : Disk) (src dst : Nat) : Disk :=
  match renameTry d src dst with
  | some d2 => d2
  | none =>
    match renameTry (eraseF d dst) src dst with
    | some d2 => d2
    | none => eraseF d dst

/-- The rename loop of `rotate_if_needed`:
`for (int i = max_files_ - 1; i >= 1; --i)` with
`from = (i == 1 ? path : path.(i-1))`, `to = path.i`, skipping when
`from` does not exist.  The argument is the loop variable `i`. -/
def rotateLoop (d : Disk) : Nat → Disk
  | 0 => d
  | v + 1 =>
    let src := if v = 0 then 0 else v
    let d2 := if (lookupF d src).isSome then renameStep d src (v + 1) else d
    rotateLoop d2 v

/-! ## File sink (`class FileSink`) -/

/-- Embeds `FileSink`: configuration, the disk it acts on, and whether
`out_` is open.  `ensure_dir` is a no-op in the model. -/
structure FileSink where
  max_bytes : Nat
  max_files : Nat
  disk : Disk
  isOpen : Bool
deriving DecidableEq

/-- Embeds `open_file`: nothing if already open, else open `path_` in
append mode, which creates the file empty when absent and keeps its
content otherwise. -/
def FileSink.open_file (s : FileSink) : FileSink :=
  if s.isOpen then s
  else
    { s with
      disk := if (lookupF s.disk 0).isSome then s.disk else writeF s.disk 0 ""
      isOpen := true }

/-- Embeds `size_now`: `fs::file_size(path_)`, `0` on error (missing file). -/
def FileSink.size_now (s : FileSink) : Nat :=
  match lookupF s.disk 0 with
  | some c => c.length
  | none => 0

/-- Embeds `rotate_if_needed`: no-op when `max_bytes_ == 0` or the size is
still below the threshold; otherwise close, run the rename loop from
`max_files_ - 1`, and reopen. -/
def FileSink.rotate_if_needed (s : FileSink) : FileSink :=
  if s.max_bytes = 0 then s
  else if s.size_now < s.max_bytes then s
  else
    FileSink.open_file
      { s with disk := rotateLoop s.disk (s.max_files - 1), isOpen := false }

/-- Embeds the constructor `FileSink(path, max_bytes, max_files, utc)`
acting on a pre-existing disk `d`: store the configuration and open the file. -/
def FileSink.init (max_bytes max_files : Nat) (d : Disk) : FileSink :=
  FileSink.open_file ⟨max_bytes, max_files, d, false⟩

/-- Embeds `FileSink::write` with the rendered line abstracted to the
string `line` that `format_line(m, utc_, false)` produced: rotate if
needed, reopen if closed, append the line and a newline through `out_`. -/
def FileSink.write (s : FileSink) (line : String) : FileSink :=
  let s1 := s.rotate_if_needed
  let s2 := if s1.isOpen then s1 else s1.open_file
  { s2 with disk := writeF s2.disk 0 (((lookupF s2.disk 0).getD "") ++ (line ++ "\n")) }

/-- A sequence of `write` calls. -/
def FileSink.writeAll (s : FileSink) (lines : List String) : FileSink :=
  lines.foldl FileSink.write s

/-! ## Logger (`class Logger`) -/

/-- Ambient values the source reads at a call site: `now_ns()`,
`std::time(nullptr)`, `std::this_thread::get_id()`. -/
structure Env where
  nowNs : Nat
  wall : Int
  tid : Nat
deriving DecidableEq

/-- One producer call into `Logger::log` (what the macro layer passes). -/
structure LogCall where
  lv : Int
  file : String
  line : Int
  func : String
  args : List CatArg
deriving DecidableEq

/-- Embeds the `Logger` state: runtime threshold `level_`, the sink list,
and the async machinery.  Each registered sink is represented by the
sequence of messages its `write` has received, in order. -/
structure Logger where
  threshold : Int
  utc : Bool
  sinks : List (List LogMessage)
  running : Bool
  queue : List LogMessage
deriving DecidableEq

/-- Embeds `set_level`. -/
def Logger.set_level (L : Logger) (lv : Int) : Logger :=
  { L with threshold := lv }

/-- Embeds `add_sink`: push a fresh sink at the end of the list. -/
def Logger.add_sink (L : Logger) : Logger :=
  { L with sinks := L.sinks ++ [[]] }

/-- The `LogMessage` that `Logger::log` constructs once the filter passes. -/
def mkMessage (e : Env) (lv : Int) (file : String) (line : Int) (func : String)
    (args : List CatArg) : LogMessage :=
  ⟨lv, e.nowNs, e.wall, e.tid, file, func, line, cat args⟩

/-- `mkMessage` applied to a bundled call. -/
def mkMsg (e : Env) (c : LogCall) : LogMessage :=
  mkMessage e c.lv c.file c.line c.func c.args

/-- Embeds `dispatch`: under the Logger lock, `write` on every registered
sink in registration order. -/
def Logger.dispatch (L : Logger) (m : LogMessage) : Logger :=
  { L with sinks := L.sinks.map (fun s => s ++ [m]) }

/-- Embeds `Logger::log`: return untouched if `lv < level_`, else build
the message; enqueue when the async worker is running, else dispatch. -/
def Logger.log (L : Logger) (e : Env) (lv : Int) (file : String) (line : Int)
    (func : String) (args : List CatArg) : Logger :=
  if lv < L.threshold then L
  else
    let m := mkMessage e lv file line func args
    if L.running then { L with queue := L.queue ++ [m] }
    else L.dispatch m

/-- A sequence of `log` calls from one synchronous caller. -/
def Logger.logAll (L : Logger) (cs : List (Env × LogCall)) : Logger :=
  cs.foldl (fun a ec => a.log ec.1 ec.2.lv ec.2.file ec.2.line ec.2.func ec.2.args) L

/-! ## Async worker teardown (`start_async`, `~Logger`, `MPMCQueue`)

`~Logger` runs `running_ = false; q_.close(); worker_.join()`.  After the
close, `MPMCQueue::pop` no longer blocks: it hands out the queued
messages one by one and returns `false` once the queue is empty.  The
worker body from `start_async` is
`while (running_) { if (!q_.pop(m)) break; dispatch(m); }`. -/

/-- The worker body run to completion once the queue has been closed,
with `running` the value the worker reads for `running_` at the loop
head.  Returns the messages the worker still dispatches before exiting. -/
def workerAfterClose : Bool → List LogMessage → List LogMessage
  | false, _ => []
  | true, [] => []
  | true, m :: rest => m :: workerAfterClose true rest

/-! ## Scope timer (`class ScopeTimer`, `LOG_SCOPE`) -/

/-- Embeds the `ScopeTimer` fields captured at construction.  `start` is
the `high_resolution_clock` instant in nanoseconds. -/
structure ScopeTimer where
  file : String
  func : String
  line : Int
  lv : Int
  name : String
  start : Int
deriving DecidableEq

/-- The constructor: captures its arguments and the clock; the list of
`Logger::log` calls it performs is empty. -/
def ScopeTimer.construct (file : String) (line : Int) (func : String) (level : Int)
    (name : String) (now : Int) : ScopeTimer × List LogCall :=
  (⟨file, func, line, level, name, now⟩, [])

/-- The destructor: computes elapsed microseconds and issues the one call
`log(lv_, file_, line_, func_, name_, " took ", us, "us")`. -/
def ScopeTimer.destruct (t : ScopeTimer) (now : Int) : List LogCall :=
  let us := (now - t.start) / 1000
  [⟨t.lv, t.file, t.line, t.func,
    [CatArg.s t.name, CatArg.s " took ", CatArg.i us, CatArg.s "us"]⟩]

/-- Embeds `LOG_SCOPE(name)`: a `ScopeTimer` with the level fixed at
`tinylog::level::debug`. -/
def logScope (file : String) (line : Int) (func : String) (name : String)
    (now : Int) : ScopeTimer × List LogCall :=
  ScopeTimer.construct file line func level.debug name now

/-! ## Default file-sink path (`sanitized_ext`, `default_log_path`)

`std::string` here is modelled at the character level (`List Char`),
matching `front()`, `empty()` and concatenation in the source. -/

/-- Embeds `sanitized_ext`: empty becomes `".tiny"`, a leading `'.'` is
kept, otherwise a `'.'` is prepended. -/
def sanitized_ext (e : List Char) : List Char :=
  match e with
  | [] => ".tiny".toList
  | c :: _ => if c = '.' then e else '.' :: e

/-- `fs::path(dir) / file`: the right side wins when absolute, otherwise
a separator is inserted unless `dir` is empty or already ends in one. -/
def pathAppend (dir file : List Char) : List Char :=
  if file.head? = some '/' then file
  else if dir = [] then file
  else if dir.getLast? = some '/' then dir ++ file
  else dir ++ '/' :: file

/-- Embeds `default_log_path`: `fs::path(log_dir_) / (log_base_ + log_ext_)`
where `log_ext_` was stored through `sanitized_ext` by `set_log_extension`. -/
def default_log_path (dir base ext : List Char) : List Char :=
  pathAppend dir (base ++ ext)

/-! ## Concrete sample values used by witnesses and counterexamples -/

/-- A sample message. -/
def msg0 : LogMessage := ⟨2, 0, 0, 1, "src/main.cpp", "main", 24, "hello"⟩

/-- A sample ambient environment. -/
def env0 : Env := ⟨0, 0, 7⟩

/-- A sample logger in synchronous mode with one registered sink and
threshold `info`. -/
def L0 : Logger := ⟨2, false, [[]], false, []⟩

/-! ## The spec's reading of the rotation sequence (for refinement) -/

/-- Modelled from the spec's words, for comparison with `rotateLoop`:
"for k from max_files-1 down to 2 it renames path.(k-1) to path.k, then
renames path to path.1 (skipping renames whose source does not exist)",
with the same remove-and-retry fallback on a failing rename. -/
def rotateSpec (d : Disk) (maxFiles : Nat) : Disk :=
  let ks := (List.range' 2 (maxFiles - 2)).reverse
  let d2 := ks.foldl
    (fun acc k => if (lookupF acc (k - 1)).isSome then renameStep acc (k - 1) k else acc) d
  if (lookupF d2 0).isSome then renameStep d2 0 1 else d2

/-! ## Disk lemmas -/

theorem lookupF_nil (k : Nat) : lookupF [] k = none := rfl

@[simp] theorem lookupF_cons (e : Nat × String) (d : Disk) (k : Nat) :
    lookupF (e :: d) k = if e.1 = k then some e.2 else lookupF d k := by
  by_cases h : e.1 = k <;> simp [lookupF, List.find?_cons, h]

theorem eraseF_cons (e : Nat × String) (d : Disk) (k : Nat) :
    eraseF (e :: d) k = if e.1 = k then eraseF d k else e :: eraseF d k := by
  by_cases h : e.1 = k <;> simp [eraseF, List.filter_cons, h]

@[simp] theorem lookupF_eraseF (d : Disk) (k j : Nat) :
    lookupF (eraseF d k) j = if j = k then none else lookupF d j := by
  induction d with
  | nil => by_cases h : j = k <;> simp [eraseF, lookupF, h]
  | cons e d ih =>
    rw [eraseF_cons]
    by_cases hek : e.1 = k <;> by_cases hej : e.1 = j <;> by_cases hjk : j = k <;>
      simp_all

@[simp] theorem lookupF_writeF (d : Disk) (k j : Nat) (c : String) :
    lookupF (writeF d k c) j = if j = k then some c else lookupF d j := by
  rw [writeF, lookupF_cons, lookupF_eraseF]
  by_cases h : j = k
  · simp [h]
  · simp [h, Ne.symm h]

theorem eraseF_eraseF (d : Disk) (k : Nat) :
    eraseF (eraseF d k) k = eraseF d k := by
  simp [eraseF, List.filter_filter]

/-! ## Rename lemmas -/

theorem renameStep_moves (d : Disk) (src dst : Nat) (c : String)
    (hne : src ≠ dst) (hc : lookupF d src = some c) :
    lookupF (renameStep d src dst) dst = some c
      ∧ lookupF (renameStep d src dst) src = none := by
  by_cases hd : (lookupF d dst).isSome
  · have h1 : renameTry d src dst = none := by simp [renameTry, hd]
    have h4 : renameTry (eraseF d dst) src dst
        = some (writeF (eraseF (eraseF d dst) src) dst c) := by
      simp [renameTry, hne, hc]
    rw [renameStep, h1, h4]
    constructor
    · rw [lookupF_writeF, if_pos rfl]
    · rw [lookupF_writeF, if_neg hne, lookupF_eraseF, if_pos rfl]
  · have h4 : renameTry d src dst = some (writeF (eraseF d src) dst c) := by
      simp [renameTry, hd, hc]
    rw [renameStep, h4]
    constructor
    · rw [lookupF_writeF, if_pos rfl]
    · rw [lookupF_writeF, if_neg hne, lookupF_eraseF, if_pos rfl]

theorem renameStep_other (d : Disk) (src dst j : Nat)
    (hjs : j ≠ src) (hjd : j ≠ dst) :
    lookupF (renameStep d src dst) j = lookupF d j := by
  rcases hcd : lookupF d dst with _ | cD <;> rcases hcs : lookupF d src with _ | cS <;>
    by_cases hsd : src = dst <;>
      simp_all [renameStep, renameTry, hjs, hjd]

/-! ## Rotation-loop lemmas -/

theorem rotateLoop_live_gone (n : Nat) (hn : 1 ≤ n) :
    ∀ d : Disk, lookupF (rotateLoop d n) 0 = none := by
  induction n with
  | zero => omega
  | succ v ih =>
    intro d
    by_cases hv : v = 0
    · subst hv
      rw [rotateLoop]
      simp only [if_pos rfl]
      cases hc : lookupF d 0 with
      | none => simp [hc, rotateLoop]
      | some c =>
        have := renameStep_moves d 0 1 c (by omega) hc
        simp [hc, rotateLoop, this.2]
    · rw [rotateLoop]
      exact ih (by omega) _

theorem rotateLoop_backup_one (n : Nat) (hn : 1 ≤ n) :
    ∀ (d : Disk) (c : String), lookupF d 0 = some c →
      lookupF (rotateLoop d n) 1 = some c := by
  induction n with
  | zero => omega
  | succ v ih =>
    intro d c hc
    by_cases hv : v = 0
    · subst hv
      rw [rotateLoop]
      simp only [if_pos rfl]
      have := renameStep_moves d 0 1 c (by omega) hc
      simp [rotateLoop, hc, this.1]
    · rw [rotateLoop]
      simp only [if_neg hv]
      have hpres :
          lookupF (if (lookupF d v).isSome then renameStep d v (v + 1) else d) 0
            = some c := by
        by_cases hs : (lookupF d v).isSome
        · rw [if_pos hs, renameStep_other d v (v + 1) 0 (by omega) (by omega)]
          exact hc
        · rw [if_neg hs]; exact hc
      exact ih (by omega) _ c hpres

/-! ## File-sink write lemmas -/

theorem write_disk_no_rotation (s : FileSink) (line : String)
    (h0 : ¬ s.max_bytes = 0) (h : s.size_now < s.max_bytes) :
    (s.write line).disk
      = writeF s.disk 0 (((lookupF s.disk 0).getD "") ++ (line ++ "\n")) := by
  cases ho : s.isOpen <;> rcases hc : lookupF s.disk 0 with _ | c <;>
    simp_all [FileSink.write, FileSink.rotate_if_needed, FileSink.open_file,
      eraseF_cons, eraseF_eraseF, writeF]

theorem write_disk_rotation (s : FileSink) (line c : String)
    (h0 : ¬ s.max_bytes = 0) (hF : 2 ≤ s.max_files)
    (hc : lookupF s.disk 0 = some c) (hs : s.max_bytes ≤ c.length) :
    lookupF (s.write line).disk 0 = some (line ++ "\n")
      ∧ lookupF (s.write line).disk 1 = some c := by
  have hsize : ¬ s.size_now < s.max_bytes := by
    simp only [FileSink.size_now, hc]; omega
  have hn : 1 ≤ s.max_files - 1 := by omega
  have hgone : lookupF (rotateLoop s.disk (s.max_files - 1)) 0 = none :=
    rotateLoop_live_gone _ hn _
  have hb1 : lookupF (rotateLoop s.disk (s.max_files - 1)) 1 = some c :=
    rotateLoop_backup_one _ hn _ _ hc
  have hemp : ∀ t : String, "" ++ t = t := fun t => by cases t; rfl
  constructor <;>
    simp [FileSink.write, FileSink.rotate_if_needed, h0, hsize,
      FileSink.open_file, hgone, hb1, hemp]

/-! ## Equivalence of the rotation loop with the spec's rename sequence -/

theorem rotateLoop_eq_rotateSpec (n : Nat) (h : 2 ≤ n) :
    ∀ d : Disk, rotateLoop d (n - 1) = rotateSpec d n := by
  induction n, h using Nat.le_induction with
  | base =>
    intro d
    simp [rotateLoop, rotateSpec]
  | succ n hn ih =>
    intro d
    obtain ⟨m, rfl⟩ : ∃ m, n = m + 2 := ⟨n - 2, by omega⟩
    have hrange : List.range' 2 (m + 1) = List.range' 2 m ++ [m + 2] := by
      have h : List.range' 2 (m + 1) = List.range' 2 m ++ [2 + 1 * m] :=
        List.range'_concat 2 m
      simpa [Nat.add_comm] using h
    show rotateLoop d (m + 2) = rotateSpec d (m + 3)
    rw [rotateSpec, show m + 3 - 2 = m + 1 from rfl, hrange]
    simp only [List.reverse_append, List.reverse_cons, List.reverse_nil,
      List.nil_append, List.singleton_append, List.foldl_cons]
    rw [rotateLoop]
    simp only [show ¬ (m + 1 = 0) from Nat.succ_ne_zero m, if_false,
      show m + 2 - 1 = m + 1 from rfl, show m + 1 + 1 = m + 2 from rfl]
    have ih2 : ∀ d : Disk, rotateLoop d (m + 1) = rotateSpec d (m + 2) := ih
    rw [ih2, rotateSpec, show m + 2 - 2 = m from rfl]

/-! ## Logger dispatch lemmas -/

theorem log_suppressed (L : Logger) (e : Env) (lv : Int) (file : String)
    (line : Int) (func : String) (args : List CatArg) (h : lv < L.threshold) :
    L.log e lv file line func args = L := by
  simp [Logger.log, h]

theorem log_dispatched (L : Logger) (e : Env) (lv : Int) (file : String)
    (line : Int) (func : String) (args : List CatArg)
    (h : ¬ lv < L.threshold) (hA : L.running = false) :
    L.log e lv file line func args
      = L.dispatch (mkMessage e lv file line func args) := by
  simp [Logger.log, h, hA]

theorem logAll_sinks (cs : List (Env × LogCall)) :
    ∀ L : Logger, L.running = false → (∀ x ∈ cs, L.threshold ≤ x.2.lv) →
      (L.logAll cs).sinks
        = L.sinks.map (fun s => s ++ cs.map (fun x => mkMsg x.1 x.2)) := by
  induction cs with
  | nil => intro L _ _; simp [Logger.logAll]
  | cons x cs ih =>
    intro L hA hcs
    have hx : ¬ x.2.lv < L.threshold :=
      not_lt.mpr (hcs x (List.mem_cons_self x cs))
    have hstep : L.log x.1 x.2.lv x.2.file x.2.line x.2.func x.2.args
        = L.dispatch (mkMsg x.1 x.2) :=
      log_dispatched L x.1 x.2.lv x.2.file x.2.line x.2.func x.2.args hx hA
    have hA2 : (L.dispatch (mkMsg x.1 x.2)).running = false := by
      simpa [Logger.dispatch] using hA
    have hrest : ∀ y ∈ cs, (L.dispatch (mkMsg x.1 x.2)).threshold ≤ y.2.lv := by
      intro y hy
      simpa [Logger.dispatch] using hcs y (List.mem_cons_of_mem x hy)
    have h2 := ih (L.dispatch (mkMsg x.1 x.2)) hA2 hrest
    rw [Logger.logAll, List.foldl_cons, hstep]
    rw [Logger.logAll] at h2
    rw [h2]
    simp only [Logger.dispatch, List.map_map, List.map_cons]
    have hfun : ((fun s => s ++ List.map (fun x => mkMsg x.1 x.2) cs) ∘
          fun s => s ++ [mkMsg x.1 x.2])
        = fun s => s ++ (mkMsg x.1 x.2 :: List.map (fun x => mkMsg x.1 x.2) cs) := by
      funext s
      simp
    rw [hfun]

/-! ## Claim theorems -/

/-- C1: for levels `L1 < L2`, after `set_level L2` a `log` call at `L1`
returns the logger completely unchanged — the filter fires before the
message is built, so no sink or queue state moves — while a call at `L2`
or any higher level constructs the message and delivers it: appended to
every sink synchronously, or enqueued when async is running. -/
theorem c1_threshold_filter (L : Logger) (e : Env) (L1 L2 : Int)
    (file : String) (line : Int) (func : String) (args : List CatArg)
    (h12 : L1 < L2) :
    ((L.set_level L2).log e L1 file line func args = L.set_level L2)
    ∧ ∀ lv : Int, L2 ≤ lv →
      (L.running = false →
        ((L.set_level L2).log e lv file line func args).sinks
          = L.sinks.map (fun s => s ++ [mkMessage e lv file line func args]))
      ∧ (L.running = true →
        ((L.set_level L2).log e lv file line func args).queue
          = L.queue ++ [mkMessage e lv file line func args]) := by
  constructor
  · exact log_suppressed _ _ _ _ _ _ _ (by simpa [Logger.set_level] using h12)
  · intro lv hlv
    have hnl : ¬ lv < L2 := not_lt.mpr hlv
    constructor <;> intro hr <;>
      simp [Logger.log, Logger.set_level, hnl, hr, Logger.dispatch]

/-- Witness for C1 at threshold 4, suppressed level 2, passing level 5. -/
theorem c1_witness :
    ((L0.set_level 4).log env0 2 "a.cpp" 1 "f" [CatArg.s "x"] = L0.set_level 4)
    ∧ ((L0.set_level 4).log env0 5 "a.cpp" 1 "f" [CatArg.s "x"]).sinks
        = L0.sinks.map (fun s => s ++ [mkMessage env0 5 "a.cpp" 1 "f" [CatArg.s "x"]]) := by
  have h := c1_threshold_filter L0 env0 2 4 "a.cpp" 1 "f" [CatArg.s "x"] (by decide)
  exact ⟨h.1, (h.2 5 (by decide)).1 rfl⟩

/-- C2 (code behaviour at teardown, contradicting the drain guarantee):
`~Logger` stores `running_ = false` before closing the queue, and the
worker's loop head tests `running_`; with the flag already false the
worker exits without popping, so a message still queued at teardown is
never dispatched — even though the closed queue itself would hand every
remaining message to the worker (`workerAfterClose true q = q`), the
`while (running_)` guard abandons the queue contents. -/
theorem c2_teardown_drops_queue :
    workerAfterClose false [msg0] = []
    ∧ workerAfterClose false [msg0] ≠ [msg0]
    ∧ (∀ q : List LogMessage, workerAfterClose true q = q) := by
  refine ⟨rfl, by decide, ?_⟩
  intro q
  induction q with
  | nil => rfl
  | cons m rest ih => rw [workerAfterClose, ih]

/-- C3 as stated is false on the code: with threshold 10, after writes of
"AAAAA" then "BBBBB" (6 bytes each with the newline), the second write
pushes the live file from 6 to 12 bytes — at/over the threshold — yet no
rotation precedes it: the live file ends at 12 > 10 bytes holding both
lines and no backup `path.1` exists. -/
theorem c3_counterexample :
    lookupF (((FileSink.init 10 3 []).write "AAAAA").write "BBBBB").disk 0
        = some "AAAAA\nBBBBB\n"
    ∧ 10 < (((FileSink.init 10 3 []).write "AAAAA").write "BBBBB").size_now
    ∧ lookupF (((FileSink.init 10 3 []).write "AAAAA").write "BBBBB").disk 1
        = none := by
  exact ⟨by decide, by decide, by decide⟩

/-- C3 amended: rotation is keyed on the pre-write file size, not on the
size the write would reach: a write finding the size already at/over the
threshold rotates first and its line lands alone in a fresh live file,
while a write finding the size below the threshold appends in place with
no rotation and no other file touched, even when the append itself pushes
the size to or past the threshold; so the live file may exceed the
threshold by the crossing line until the next write. -/
theorem c3_amended_rotation_prewrite (s : FileSink) (line : String)
    (h0 : 0 < s.max_bytes) (hF : 2 ≤ s.max_files) :
    (s.size_now < s.max_bytes →
      lookupF (s.write line).disk 0
          = some (((lookupF s.disk 0).getD "") ++ (line ++ "\n"))
      ∧ ∀ k : Nat, k ≠ 0 → lookupF (s.write line).disk k = lookupF s.disk k)
    ∧ (s.max_bytes ≤ s.size_now →
      lookupF (s.write line).disk 0 = some (line ++ "\n")) := by
  constructor
  · intro hlt
    have hd := write_disk_no_rotation s line (by omega) hlt
    constructor
    · rw [hd, lookupF_writeF, if_pos rfl]
    · intro k hk
      rw [hd, lookupF_writeF, if_neg hk]
  · intro hge
    rcases hc : lookupF s.disk 0 with _ | c
    · exfalso
      have : s.size_now = 0 := by simp [FileSink.size_now, hc]
      omega
    · have hlen : s.max_bytes ≤ c.length := by
        have : s.size_now = c.length := by simp [FileSink.size_now, hc]
        omega
      exact (write_disk_rotation s line c (by omega) hF hc hlen).1

/-- Witness for the amended C3: threshold 10, both branches exercised on
concrete sinks. -/
theorem c3_amended_witness :
    lookupF ((FileSink.init 10 3 [(0, "AAAAA\n")]).write "BBBBB").disk 0
        = some "AAAAA\nBBBBB\n"
    ∧ lookupF ((FileSink.init 10 3 [(0, "AAAAA\nBBBBB\n")]).write "CCCCC").disk 0
        = some "CCCCC\n" := by
  constructor
  · have h := (c3_amended_rotation_prewrite (FileSink.init 10 3 [(0, "AAAAA\n")])
      "BBBBB" (by decide) (by decide)).1 (by decide)
    rw [(by decide :
      lookupF (FileSink.init 10 3 [(0, "AAAAA\n")]).disk 0 = some "AAAAA\n")] at h
    exact h.1
  · exact (c3_amended_rotation_prewrite (FileSink.init 10 3 [(0, "AAAAA\nBBBBB\n")])
      "CCCCC" (by decide) (by decide)).2 (by decide)

/-- C4: a write that triggers rotation leaves `path.1` holding exactly the
pre-rotation live content and `path` holding only the newly written line;
and in the concrete scenario with threshold 6 and `max_files = 3` (two
backups), four writes rotate three times (N+1 for N = 2) and leave exactly
the live file plus two backups on disk, the oldest content evicted. -/
theorem c4_backup_contents_and_eviction (s : FileSink) (line c : String)
    (h0 : 0 < s.max_bytes) (hF : 2 ≤ s.max_files)
    (hc : lookupF s.disk 0 = some c) (hs : s.max_bytes ≤ c.length) :
    (lookupF (s.write line).disk 0 = some (line ++ "\n")
      ∧ lookupF (s.write line).disk 1 = some c)
    ∧ ((FileSink.init 6 3 []).writeAll ["AAAAA", "BBBBB", "CCCCC", "DDDDD"]).disk.length = 3
    ∧ lookupF ((FileSink.init 6 3 []).writeAll ["AAAAA", "BBBBB", "CCCCC", "DDDDD"]).disk 0
        = some "DDDDD\n"
    ∧ lookupF ((FileSink.init 6 3 []).writeAll ["AAAAA", "BBBBB", "CCCCC", "DDDDD"]).disk 1
        = some "CCCCC\n"
    ∧ lookupF ((FileSink.init 6 3 []).writeAll ["AAAAA", "BBBBB", "CCCCC", "DDDDD"]).disk 2
        = some "BBBBB\n"
    ∧ lookupF ((FileSink.init 6 3 []).writeAll ["AAAAA", "BBBBB", "CCCCC", "DDDDD"]).disk 3
        = none
    ∧ (((FileSink.init 6 3 []).writeAll ["AAAAA", "BBBBB", "CCCCC", "DDDDD"]).disk.all
        (fun e => e.2 != "AAAAA\n")) = true := by
  exact ⟨write_disk_rotation s line c (by omega) hF hc hs,
    by decide, by decide, by decide, by decide, by decide, by decide⟩

/-- Witness for C4 at a concrete rotating write. -/
theorem c4_witness :
    lookupF ((FileSink.init 6 3 [(0, "AAAAA\n")]).write "BBBBB").disk 0
        = some "BBBBB\n"
    ∧ lookupF ((FileSink.init 6 3 [(0, "AAAAA\n")]).write "BBBBB").disk 1
        = some "AAAAA\n" := by
  have h := c4_backup_contents_and_eviction (FileSink.init 6 3 [(0, "AAAAA\n")])
    "BBBBB" "AAAAA\n" (by decide) (by decide) (by decide) (by decide)
  exact h.1

/-- C5: the rotation body performs exactly the spec's cyclic rename
sequence — for k from `max_files - 1` down to 2 rename `path.(k-1)` to
`path.k`, then rename `path` to `path.1`, skipping renames whose source
does not exist — and when a direct rename fails because the target
exists, the target is removed first and the rename retried. -/
theorem c5_rotation_rename_sequence (d : Disk) (n : Nat) (hn : 2 ≤ n)
    (src dst : Nat) (hex : (lookupF d dst).isSome) :
    rotateLoop d (n - 1) = rotateSpec d n
    ∧ renameTry d src dst = none
    ∧ renameStep d src dst
        = (match renameTry (eraseF d dst) src dst with
           | some d2 => d2
           | none => eraseF d dst) := by
  refine ⟨rotateLoop_eq_rotateSpec n hn d, by simp [renameTry, hex], ?_⟩
  rw [renameStep, show renameTry d src dst = none from by simp [renameTry, hex]]

/-- Witness for C5 with three slots and an occupied rename target. -/
theorem c5_witness :
    rotateLoop [(0, "a"), (1, "b")] 2 = rotateSpec [(0, "a"), (1, "b")] 3
    ∧ renameTry [(0, "a"), (1, "b")] 0 1 = none := by
  have h := c5_rotation_rename_sequence [(0, "a"), (1, "b")] 3 (by decide) 0 1 (by decide)
  exact ⟨h.1, h.2.1⟩

/-- C6: the default file-sink path is `<dir>/<base><ext>` where the stored
extension always starts with `'.'`: a missing leading `'.'` is prepended
(basename "app" with extension "log" gives "<dir>/app.log") and the empty
extension silently becomes ".tiny"; and the builder is a pure function of
the three stored fields, so unchanged configuration yields the identical
path string. -/
theorem c6_default_path (dir base ext : List Char)
    (hdir : dir ≠ []) (hsl : dir.getLast? ≠ some '/')
    (hb0 : base ≠ []) (hbh : base.head? ≠ some '/') :
    (sanitized_ext [] = ".tiny".toList)
    ∧ (∀ e : List Char, ∃ r : List Char, sanitized_ext e = '.' :: r)
    ∧ (∀ (c : Char) (rest : List Char), c ≠ '.' →
        sanitized_ext (c :: rest) = '.' :: c :: rest)
    ∧ (default_log_path "logs".toList "app".toList (sanitized_ext "log".toList)
        = "logs/app.log".toList)
    ∧ (default_log_path dir base ext = dir ++ '/' :: (base ++ ext))
    ∧ (default_log_path dir base ext = default_log_path dir base ext) := by
  refine ⟨rfl, ?_, ?_, by decide, ?_, rfl⟩
  · intro e
    match e with
    | [] => exact ⟨"tiny".toList, by decide⟩
    | c :: rest =>
      by_cases h : c = '.'
      · subst h
        exact ⟨rest, by simp [sanitized_ext]⟩
      · exact ⟨c :: rest, by simp [sanitized_ext, h]⟩
  · intro c rest h
    simp [sanitized_ext, h]
  · have hhead : (base ++ ext).head? = base.head? := by
      match base with
      | [] => exact absurd rfl hb0
      | b :: bs => rfl
    rw [default_log_path, pathAppend, hhead]
    rw [if_neg hbh, if_neg hdir, if_neg hsl]

/-- Witness for C6 at directory "logs", basename "app", extension "log". -/
theorem c6_witness :
    default_log_path "logs".toList "app".toList (sanitized_ext "log".toList)
      = "logs/app.log".toList := by
  exact (c6_default_path "logs".toList "app".toList ".log".toList
    (by decide) (by decide) (by decide) (by decide)).2.2.2.1

/-- C7: for every message and UTC flag, the colorized line is exactly the
plain line wrapped in the single level-specific ANSI prefix and the single
trailing reset, with the reset code serving as the color for any level
outside trace..critical; the plain line itself is unchanged. -/
theorem c7_colorize_wraps (tz : Int) (m : LogMessage) (utc : Bool) :
    format_line tz m utc true
        = colorFor m.level ++ format_line tz m utc false ++ "\x1b[0m"
    ∧ (∀ lv : Int, lv < level.trace ∨ level.critical < lv →
        colorFor lv = "\x1b[0m") := by
  constructor
  · simp [format_line]
  · intro lv h
    simp only [level.trace, level.critical] at h
    have h0 : ¬ lv = 0 := by omega
    have h1 : ¬ lv = 1 := by omega
    have h2 : ¬ lv = 2 := by omega
    have h3 : ¬ lv = 3 := by omega
    have h4 : ¬ lv = 4 := by omega
    have h5 : ¬ lv = 5 := by omega
    simp [colorFor, h0, h1, h2, h3, h4, h5]

/-- Witness for C7 at the sample message and an out-of-range level. -/
theorem c7_witness :
    format_line 0 msg0 false true
        = colorFor msg0.level ++ format_line 0 msg0 false false ++ "\x1b[0m"
    ∧ colorFor 7 = "\x1b[0m" := by
  have h := c7_colorize_wraps 0 msg0 false
  exact ⟨h.1, h.2 7 (Or.inr (by norm_num [level.critical]))⟩

/-- C8: in synchronous mode a `log` call that passes the filter writes to
every registered sink exactly once — the sink list is mapped in
registration order, each sink receiving the one new message at its end —
and a sequence of passing calls from one synchronous caller reaches every
sink in exactly the order logged. -/
theorem c8_sync_fanout_order (L : Logger) (e : Env) (c : LogCall)
    (cs : List (Env × LogCall)) (hA : L.running = false)
    (h : L.threshold ≤ c.lv) (hcs : ∀ x ∈ cs, L.threshold ≤ x.2.lv) :
    ((L.log e c.lv c.file c.line c.func c.args).sinks
        = L.sinks.map (fun s => s ++ [mkMsg e c]))
    ∧ (L.logAll cs).sinks
        = L.sinks.map (fun s => s ++ cs.map (fun x => mkMsg x.1 x.2)) := by
  constructor
  · rw [log_dispatched L e c.lv c.file c.line c.func c.args (not_lt.mpr h) hA]
    rfl
  · exact logAll_sinks cs L hA hcs

/-- Witness for C8: two passing calls to a two-sink logger. -/
theorem c8_witness :
    (Logger.logAll ⟨2, false, [[], []], false, []⟩
        [(env0, ⟨3, "a.cpp", 1, "f", [CatArg.s "x"]⟩),
         (env0, ⟨4, "a.cpp", 2, "f", [CatArg.s "y"]⟩)]).sinks
      = [[], []].map (fun s => s ++
          [mkMsg env0 ⟨3, "a.cpp", 1, "f", [CatArg.s "x"]⟩,
           mkMsg env0 ⟨4, "a.cpp", 2, "f", [CatArg.s "y"]⟩]) := by
  have h := c8_sync_fanout_order ⟨2, false, [[], []], false, []⟩ env0
    ⟨3, "a.cpp", 1, "f", [CatArg.s "x"]⟩
    [(env0, ⟨3, "a.cpp", 1, "f", [CatArg.s "x"]⟩),
     (env0, ⟨4, "a.cpp", 2, "f", [CatArg.s "y"]⟩)]
    rfl (by decide) (by decide)
  simpa using h.2

/-- C9: a `LOG_SCOPE` timer performs no log call at construction and, at
destruction, issues exactly one call at the fixed debug level whose text
is the label, " took ", the non-negative elapsed microsecond count, and
"us". -/
theorem c9_scope_timer (file func name : String) (line : Int) (t0 t1 : Int)
    (hmono : t0 ≤ t1) :
    ((logScope file line func name t0).2 = [])
    ∧ ((logScope file line func name t0).1.lv = level.debug)
    ∧ ((logScope file line func name t0).1.destruct t1).length = 1
    ∧ ∃ us : Int, 0 ≤ us
        ∧ ((logScope file line func name t0).1.destruct t1)
            = [⟨level.debug, file, line, func,
                [CatArg.s name, CatArg.s " took ", CatArg.i us, CatArg.s "us"]⟩]
        ∧ cat [CatArg.s name, CatArg.s " took ", CatArg.i us, CatArg.s "us"]
            = name ++ " took " ++ toString us ++ "us" := by
  have hemp : ∀ t : String, "" ++ t = t := fun t => by cases t; rfl
  refine ⟨rfl, rfl, rfl, (t1 - t0) / 1000, ?_, rfl, ?_⟩
  · have hd : (0 : Int) ≤ t1 - t0 := by omega
    omega
  · simp [cat, CatArg.render, hemp]

/-- Witness for C9: a 5000 ns scope renders "work took 5us". -/
theorem c9_witness :
    ((logScope "a.cpp" 3 "f" "work" 0).1.destruct 5000).length = 1
    ∧ cat [CatArg.s "work", CatArg.s " took ", CatArg.i 5, CatArg.s "us"]
        = "work took 5us" := by
  have h := c9_scope_timer "a.cpp" "f" "work" 3 0 5000 (by norm_num)
  refine ⟨h.2.2.1, ?_⟩
  obtain ⟨us, _, heq, hcat⟩ := h.2.2.2
  have : us = 5 := by
    have := congrArg (fun l => (l.headD ⟨0, "", 0, "", []⟩).args) heq
    simpa [logScope, ScopeTimer.construct, ScopeTimer.destruct] using this.symm
  rw [this] at hcat
  simpa using hcat

/-- C10: the filter compares with strict less-than, so a call carrying
level `off` (6) is never suppressed — `off < t` fails for every threshold
`t` in the level enumeration — and the message is delivered (to the sinks
synchronously or onto the queue), rendered with level name "OFF"; the
`off` threshold thus suppresses trace..critical but not a message tagged
`off`. -/
theorem c10_off_level_not_suppressed (L : Logger) (e : Env) (file : String)
    (line : Int) (func : String) (args : List CatArg)
    (hT : L.threshold ≤ level.off) :
    (L.running = false →
      (L.log e level.off file line func args).sinks
        = L.sinks.map (fun s => s ++ [mkMessage e level.off file line func args]))
    ∧ (L.running = true →
      (L.log e level.off file line func args).queue
        = L.queue ++ [mkMessage e level.off file line func args])
    ∧ level_name level.off = "OFF"
    ∧ (∀ lv : Int, lv < level.off →
        (L.set_level level.off).log e lv file line func args
          = L.set_level level.off) := by
  have hnl : ¬ level.off < L.threshold := not_lt.mpr hT
  refine ⟨?_, ?_, by decide, ?_⟩
  · intro hr
    rw [log_dispatched L e level.off file line func args hnl hr]
    rfl
  · intro hr
    simp [Logger.log, hnl, hr]
  · intro lv hlv
    exact log_suppressed _ _ _ _ _ _ _ (by simpa [Logger.set_level] using hlv)

/-- Witness for C10: threshold `off`, a message tagged `off` still reaches
the sink while one tagged `critical` does not. -/
theorem c10_witness :
    ((L0.set_level level.off).log env0 level.off "a.cpp" 1 "f" [CatArg.s "x"]).sinks
        = [[mkMessage env0 level.off "a.cpp" 1 "f" [CatArg.s "x"]]]
    ∧ (L0.set_level level.off).log env0 level.critical "a.cpp" 1 "f" [CatArg.s "x"]
        = L0.set_level level.off := by
  have h := c10_off_level_not_suppressed (L0.set_level level.off) env0
    "a.cpp" 1 "f" [CatArg.s "x"] (by decide)
  constructor
  · have h1 := h.1 rfl
    simpa [L0, Logger.set_level] using h1
  · have h4 := h.2.2.2 level.critical (by decide)
    simpa [Logger.set_level] using h4

end TinyLog
